import Mathlib

/-!
Shallow embedding of the tabular block-composition engine of this repository
(src/merlin_models/tf/tabular.py), together with theorems settling the
specification claims about filtering, merging, aggregation, shape inference
and composition.

Named tensor bundles are Python dicts: they are modelled as
insertion-ordered association lists with unique keys.  Tensors are modelled
at the shape level (a list of dimension sizes, batch first) wherever shapes
decide a claim, and as an abstract type parameter where only the dict
plumbing matters.  Python exceptions (assert failures, IndexError, invalid
axis) are modelled as `none` of an `Option` result.
-/

namespace MerlinModels

/-- A named tensor bundle: a Python dict from column name to value,
modelled as an insertion-ordered association list with unique keys. -/
abbrev Bundle (α : Type) : Type := List (String × α)

/-- Dict lookup: the value of the first entry carrying the given key. -/
def Bundle.lookup? {α : Type} (b : Bundle α) (k : String) : Option α :=
  (b.find? (fun p => p.1 == k)).map Prod.snd

/-- The keys of a bundle, in insertion order. -/
def Bundle.keys {α : Type} (b : Bundle α) : List String :=
  b.map Prod.fst

/-- An input to a layer call: either a single bare tensor or a named
bundle (a Python dict). -/
inductive TfInput (α : Type) : Type where
  | tensor (t : α)
  | bundle (b : Bundle α)
deriving DecidableEq

/-- A tensor shape: the list of dimension sizes, batch dimension first. -/
abbrev Shape : Type := List Nat

/-- tf.keras.layers.Flatten: keeps the batch dimension and collapses all
remaining dimensions into a single feature dimension. -/
def kerasFlatten : Shape → Shape
  | [] => []
  | b :: rest => [b, rest.prod]

/-- Lexicographic comparison of character lists by Unicode code point,
the order Python uses to sort dict keys. -/
def charListLt : List Char → List Char → Bool
  | [], [] => false
  | [], _ :: _ => true
  | _ :: _, [] => false
  | c :: cs, d :: ds =>
    if c.toNat < d.toNat then true
    else if d.toNat < c.toNat then false
    else charListLt cs ds

/-- Lexicographic string comparison by Unicode code point. -/
def strKeyLt (a b : String) : Bool :=
  charListLt a.data b.data

/-- Insertion step of a stable insertion sort on string keys. -/
def insertByKey {α : Type} (p : String × α) : List (String × α) → List (String × α)
  | [] => [p]
  | q :: qs => if strKeyLt q.1 p.1 then q :: insertByKey p qs else p :: q :: qs

/-- tf.nest traverses a Python dict in sorted key order; this sorts the
entries of a bundle by key. -/
def sortByKey {α : Type} (l : List (String × α)) : List (String × α) :=
  l.foldr insertByKey []

/-- tf.nest.flatten: a bare tensor is a single leaf; a dict yields its
values in sorted key order. -/
def nestFlattenedLeaves {α : Type} : TfInput α → List α
  | .tensor t => [t]
  | .bundle b => (sortByKey b).map Prod.snd

/-- Shape semantics of tf.concat along `axis`: all input shapes must have
the same rank and agree outside the concatenation axis; the dimension at
the axis is the sum of the corresponding input dimensions.  A negative
axis counts from the end; an empty input list or an out-of-range axis is
an error, modelled as `none`. -/
def tfConcatShape (xs : List Shape) (axis : Int) : Option Shape :=
  match xs with
  | [] => none
  | s :: rest =>
    let r : Nat := s.length
    let pos : Int := if axis < 0 then axis + (r : Int) else axis
    if 0 ≤ pos ∧ pos < (r : Int) then
      let p : Nat := pos.toNat
      if rest.all (fun s2 => s2.length == r && s2.eraseIdx p == s.eraseIdx p) then
        some (s.set p ((xs.map (fun s2 => s2.getD p 0)).sum))
      else none
    else none

/-- Shape semantics of tf.stack along `axis`: all input shapes must be
identical; a new axis holding the number of stacked tensors is inserted
at the (possibly negative, counting from one past the end) position.
Errors are modelled as `none`. -/
def tfStackShape (xs : List Shape) (axis : Int) : Option Shape :=
  match xs with
  | [] => none
  | s :: rest =>
    let r : Nat := s.length
    let pos : Int := if axis < 0 then axis + (r : Int) + 1 else axis
    if 0 ≤ pos ∧ pos ≤ (r : Int) then
      if rest.all (fun s2 => s2 == s) then
        some (s.take pos.toNat ++ xs.length :: s.drop pos.toNat)
      else none
    else none

/-- A value of a Keras input-shapes dict: either a plain tensor shape, or
a Python tuple of two shapes as produced for ragged (values, row_lengths)
inputs. -/
inductive ShapeItem : Type where
  | leaf (dims : List Nat)
  | tup (values row_lengths : List Nat)
deriving DecidableEq

/-- Whether a shapes-dict value is a Python tuple (the ragged case). -/
def ShapeItem.isTuple : ShapeItem → Bool
  | .leaf _ => false
  | .tup _ _ => true

/-- calculate_batch_size_from_input_shapes: the leading dimension of the
first dict value that is not a tuple.  The Python IndexError raised on an
all-tuple dict, and on a rank-zero first non-tuple shape, is modelled as
`none`. -/
def calculate_batch_size_from_input_shapes
    (input_shapes : Bundle ShapeItem) : Option Nat :=
  (((input_shapes.map Prod.snd).filter (fun i => !i.isTuple)).head?).bind
    (fun i =>
      match i with
      | .leaf dims => dims.head?
      | .tup _ _ => none)

/-- FilterFeatures: selects the entries whose key is in `columns`; with
pop set, the selected keys are additionally popped from the caller input
dict. -/
structure FilterFeatures : Type where
  columns : List String
  pop : Bool := false

/-- The effect of calling dict.pop on each key of `ks`: every entry whose
key occurs in `ks` is removed. -/
def dictPopKeys {α : Type} (d : Bundle α) (ks : List String) : Bundle α :=
  d.filter (fun p => p.1 ∉ ks)

/-- FilterFeatures.call on a dict input.  The dict comprehension keeps the
entries whose key is in columns; with pop set, the keys of that result are
then popped from the input dict.  The pair returned is (outputs, the input
dict as the caller observes it after the call). -/
def FilterFeatures.callDict {α : Type} (f : FilterFeatures) (inputs : Bundle α) :
    Bundle α × Bundle α :=
  let outputs := inputs.filter (fun p => p.1 ∈ f.columns)
  (outputs, if f.pop then dictPopKeys inputs (Bundle.keys outputs) else inputs)

/-- FilterFeatures.call: the assert requiring a dict input is modelled as
`none` on a bare tensor. -/
def FilterFeatures.call {α : Type} (f : FilterFeatures) :
    TfInput α → Option (Bundle α × Bundle α)
  | .tensor _ => none
  | .bundle b => some (f.callDict b)

/-- ConcatFeatures: Flatten every structure leaf, then tf.concat the
flattened leaves along `axis` (default -1). -/
structure ConcatFeatures : Type where
  axis : Int := -1

/-- ConcatFeatures.call at the shape level. -/
def ConcatFeatures.call (c : ConcatFeatures) (inputs : TfInput Shape) : Option Shape :=
  tfConcatShape ((nestFlattenedLeaves inputs).map kerasFlatten) c.axis

/-- Python i[1] on a shapes-dict value.  On a ragged tuple the Python
expression yields a shape rather than an integer, which makes the integer
sum in compute_output_shape ill-typed; that failure is modelled as
`none`, as is the IndexError on a shape of rank below two. -/
def shapeItemIdx1 : ShapeItem → Option Nat
  | .leaf dims => dims[1]?
  | .tup _ _ => none

/-- ConcatFeatures.compute_output_shape: the discovered batch size paired
with the sum of each value at index one.  Note the source sums i[1], the
second dimension of each entry, not the flattened feature width. -/
def ConcatFeatures.compute_output_shape (_self : ConcatFeatures)
    (input_shapes : Bundle ShapeItem) : Option (Nat × Nat) := do
  let batch ← calculate_batch_size_from_input_shapes input_shapes
  let widths ← (input_shapes.map Prod.snd).mapM shapeItemIdx1
  pure (batch, widths.sum)

/-- StackFeatures: Flatten every structure leaf, then tf.stack the
flattened leaves along `axis` (default -1). -/
structure StackFeatures : Type where
  axis : Int := -1

/-- StackFeatures.call at the shape level. -/
def StackFeatures.call (s : StackFeatures) (inputs : TfInput Shape) : Option Shape :=
  tfStackShape ((nestFlattenedLeaves inputs).map kerasFlatten) s.axis

/-- StackFeatures.compute_output_shape: the discovered batch size, the
number of dict entries, and the last dimension of the first dict value.
A first value that is a ragged tuple would make the Python result a
non-integer shape component; that case, and the IndexError on an empty
dict or empty shape, are modelled as `none`. -/
def StackFeatures.compute_output_shape (_self : StackFeatures)
    (input_shapes : Bundle ShapeItem) : Option (Nat × Nat × Nat) := do
  let batch ← calculate_batch_size_from_input_shapes input_shapes
  let first ← (input_shapes.map Prod.snd).head?
  let lastDim ←
    match first with
    | ShapeItem.leaf dims => dims.getLast?
    | ShapeItem.tup _ _ => none
  pure (batch, input_shapes.length, lastDim)

/-- AsTabular: names its input.  The call builds the one-entry dict
whose single value is whatever the input was, tensor or dict alike; the
source raises no error on a dict input. -/
structure AsTabular : Type where
  output_name : String

/-- AsTabular.call: the one-entry dict holding the input. -/
def AsTabular.call {α : Type} (a : AsTabular) (inputs : TfInput α) :
    Bundle (TfInput α) :=
  [(a.output_name, inputs)]

/-- The post-processing aggregator a TabularLayer call can resolve to.
concatF stands for a fresh ConcatFeatures instance, stackF for a fresh
StackFeatures instance. -/
inductive PostOp : Type where
  | concatF
  | stackF
deriving DecidableEq

/-- TabularLayer.set_aggregation: the construction-time aggregation
string is mapped to an aggregator, anything else to no aggregation. -/
def TabularLayer.set_aggregation : Option String → Option PostOp
  | some "concat" => some PostOp.concatF
  | some "stack" => some PostOp.stackF
  | _ => none

/-- The post_op resolution at the top of TabularLayer call: start from
the construction-time aggregation; a true concat_outputs flag replaces
it; a true stack_outputs flag then replaces that in turn. -/
def TabularLayer.resolve_post_op (aggregation : Option PostOp)
    (concat_outputs stack_outputs : Bool) : Option PostOp :=
  let post_op := aggregation
  let post_op := if concat_outputs then some PostOp.concatF else post_op
  let post_op := if stack_outputs then some PostOp.stackF else post_op
  post_op

/-- Python dict item assignment d[k] = v on a unique-key dict: the value
is replaced in place when the key is present, and the entry is appended
at the end otherwise. -/
def dictSetItem {α : Type} (d : Bundle α) (k : String) (v : α) : Bundle α :=
  match d with
  | [] => [(k, v)]
  | p :: rest => if p.1 = k then (k, v) :: rest else p :: dictSetItem rest k v

/-- Python dict.update: every entry of e is assigned into d, in the
iteration order of e. -/
def dictUpdate {α : Type} (d e : Bundle α) : Bundle α :=
  e.foldl (fun acc p => dictSetItem acc p.1 p.2) d

/-- MergeTabular: holds the blocks to merge, in argument order. -/
structure MergeTabular (α β : Type) : Type where
  to_merge : List (Bundle α → Bundle β)

/-- MergeTabular.call on a dict input: each block is applied to the same
input dict in argument order and its output dict is dict.updated into an
initially empty accumulator. -/
def MergeTabular.callDict {α β : Type} (m : MergeTabular α β)
    (inputs : Bundle α) : Bundle β :=
  m.to_merge.foldl (fun outputs layer => dictUpdate outputs (layer inputs)) []

/-- MergeTabular.call: the assert requiring a dict input is modelled as
`none` on a bare tensor. -/
def MergeTabular.call {α β : Type} (m : MergeTabular α β) :
    TfInput α → Option (Bundle β)
  | .tensor _ => none
  | .bundle b => some (m.callDict b)

/-- The last `some` of a list of optional values, `none` when there is
none: the value surviving a sequence of optional overwrites. -/
def lastWrite {β : Type} (l : List (Option β)) : Option β :=
  l.foldl (fun acc o => match o with | some v => some v | none => acc) none

/-- Modelled from the spec: right_shift_layer is defined in
merlin_models.tf.blocks.base and re-exported from merlin_models.tf.core,
neither of which is under src.  The spec describes the composed chain as
an ordered sequence of blocks applied in turn. -/
structure SequentialBlock (α : Type) : Type where
  layers : List (α → α)

/-- Applying a sequential chain: each layer is applied in turn, the first
listed layer first. -/
def SequentialBlock.call {α : Type} (s : SequentialBlock α) (x : α) : α :=
  s.layers.foldl (fun acc layer => layer acc) x

/-- Modelled from the spec: right_shift_layer self other builds the chain
that applies other first and then self. -/
def right_shift_layer {α : Type} (self other : α → α) : SequentialBlock α :=
  SequentialBlock.mk [other, self]

/-- The composition a >> b: Python dispatches to the reflected right-shift
of b with a as the other operand, i.e. right_shift_layer b a. -/
def rshiftBlocks {α : Type} (a b : α → α) : SequentialBlock α :=
  right_shift_layer b a

/-- The only piece of the external nvtabular ColumnGroup the factory
consumes: its list of selected columns. -/
structure ColumnGroup (Col : Type) : Type where
  columns : List Col

/-- TabularLayer.from_column_group.  get_tagged belongs to the external
nvtabular collaborator and from_features builds the block through the
composition operator whose implementation is not under src; both are
taken as parameters.  A tag filter, when given, replaces the column group
by its tagged selection; an empty selection yields no block rather than
an error. -/
def TabularLayer.from_column_group {Col Tg Blk : Type}
    (get_tagged : ColumnGroup Col → Tg → ColumnGroup Col)
    (from_features : List Col → Blk)
    (column_group : ColumnGroup Col) (tags : Option Tg) : Option Blk :=
  let cg :=
    match tags with
    | some t => get_tagged column_group t
    | none => column_group
  if cg.columns.isEmpty then none
  else some (from_features cg.columns)

/-! ## Claim theorems: the directly computable ones -/

/-- Claim C3 counterexample: with both per-call flags set, the resolved
post-processing aggregator is StackFeatures, not ConcatFeatures — the
stack_outputs flag is applied after, and therefore overrides, the
concat_outputs flag. -/
theorem resolve_post_op_both_flags_stack :
    TabularLayer.resolve_post_op (TabularLayer.set_aggregation (some "concat")) true true
        = some PostOp.stackF
    ∧ TabularLayer.resolve_post_op (TabularLayer.set_aggregation (some "concat")) true true
        ≠ some PostOp.concatF := by
  constructor
  · rfl
  · decide

/-- Claim C3 (amended): the per-call aggregator resolution gives
stack_outputs the highest precedence, then concat_outputs, then the
construction-time aggregation, then no aggregation; and set_aggregation
maps the strings concat and stack to the matching aggregators. -/
theorem resolve_post_op_precedence (agg : Option PostOp) (c s : Bool) :
    TabularLayer.resolve_post_op agg c s
        = (if s then some PostOp.stackF else if c then some PostOp.concatF else agg)
    ∧ TabularLayer.set_aggregation (some "concat") = some PostOp.concatF
    ∧ TabularLayer.set_aggregation (some "stack") = some PostOp.stackF
    ∧ TabularLayer.set_aggregation none = none := by
  refine ⟨?_, rfl, rfl, rfl⟩
  cases s <;> cases c <;> rfl

/-- Claim C4 (code bug witness computation): on a two-entry bundle of
flattened width eight and batch three, StackFeatures.call with the
default axis -1 produces the shape (3, 8, 2), whereas its own
compute_output_shape reports (3, 2, 8) — the claimed (batch, entries,
width) shape; the two disagree.  On unequal widths the call is an error
rather than a silent truncation. -/
theorem stack_call_shape_contradicts_inferred :
    StackFeatures.call (StackFeatures.mk (-1))
        (TfInput.bundle [("a", [3, 8]), ("b", [3, 8])]) = some [3, 8, 2]
    ∧ StackFeatures.compute_output_shape (StackFeatures.mk (-1))
        [("a", ShapeItem.leaf [3, 8]), ("b", ShapeItem.leaf [3, 8])] = some (3, 2, 8)
    ∧ (some [3, 8, 2] : Option Shape) ≠ some [3, 2, 8]
    ∧ StackFeatures.call (StackFeatures.mk (-1))
        (TfInput.bundle [("a", [3, 8]), ("b", [3, 6])]) = none := by
  refine ⟨by decide, by decide, by decide, by decide⟩

/-- Claim C5 counterexample: ConcatFeatures and StackFeatures applied to
a single bare tensor return a result instead of failing — tf.nest treats
the tensor as a one-leaf structure. -/
theorem concat_stack_accept_bare_tensor :
    ConcatFeatures.call (ConcatFeatures.mk (-1)) (TfInput.tensor [4, 6]) = some [4, 6]
    ∧ StackFeatures.call (StackFeatures.mk (-1)) (TfInput.tensor [4, 6])
        = some [4, 6, 1] := by
  refine ⟨by decide, by decide⟩

/-- Claim C5 (amended): on a single bare tensor input, only MergeTabular
fails (its dict assert); ConcatFeatures returns the flattened tensor and
StackFeatures the flattened tensor with an extra trailing singleton
axis. -/
theorem bare_tensor_behavior {α β : Type} (m : MergeTabular α β) (t : α)
    (d : Nat) (rest : List Nat) :
    MergeTabular.call m (TfInput.tensor t) = none
    ∧ ConcatFeatures.call (ConcatFeatures.mk (-1)) (TfInput.tensor (d :: rest))
        = some [d, rest.prod]
    ∧ StackFeatures.call (StackFeatures.mk (-1)) (TfInput.tensor (d :: rest))
        = some [d, rest.prod, 1] := by
  refine ⟨rfl, ?_, ?_⟩
  · show tfConcatShape [[d, rest.prod]] (-1) = some [d, rest.prod]
    simp [tfConcatShape, List.set]
  · show tfStackShape [[d, rest.prod]] (-1) = some [d, rest.prod, 1]
    simp [tfStackShape]

/-- Claim C6 counterexample: AsTabular applied to a bundle returns the
bundle wrapped as the single value of a one-entry dict — no error is
raised on a dict input. -/
theorem as_tabular_accepts_bundle :
    AsTabular.call (AsTabular.mk "user") (TfInput.bundle [("a", ([2, 3] : Shape))])
        = [("user", TfInput.bundle [("a", [2, 3])])] := rfl

/-- Claim C6 (amended): AsTabular names whatever input it receives: a
single tensor T becomes the one-entry dict mapping the output name to T,
and a dict input is likewise wrapped — as a nested one-entry dict — with
no error raised; the result always has exactly the output name as key. -/
theorem as_tabular_wraps_any_input {α : Type} (s : String) (x : TfInput α)
    (t : α) (b : Bundle α) :
    AsTabular.call (AsTabular.mk s) (TfInput.tensor t) = [(s, TfInput.tensor t)]
    ∧ AsTabular.call (AsTabular.mk s) (TfInput.bundle b) = [(s, TfInput.bundle b)]
    ∧ Bundle.keys (AsTabular.call (AsTabular.mk s) x) = [s]
    ∧ Bundle.lookup? (AsTabular.call (AsTabular.mk s) x) s = some x := by
  refine ⟨rfl, rfl, rfl, ?_⟩
  simp [AsTabular.call, Bundle.lookup?]

/-- Claim C7 (code bug witness computation): on the rank-two example the
inferred shape (2, 10) matches the actual concatenation, but on a
rank-three leaf of shape (2, 4, 5) compute_output_shape reports (2, 4),
the second dimension, while the call flattens to width twenty and
returns the shape (2, 20) — the inferred width is not the flattened
feature width. -/
theorem concat_inferred_shape_contradicts_call :
    ConcatFeatures.compute_output_shape (ConcatFeatures.mk (-1))
        [("a", ShapeItem.leaf [2, 4]), ("b", ShapeItem.leaf [2, 6])] = some (2, 10)
    ∧ ConcatFeatures.call (ConcatFeatures.mk (-1))
        (TfInput.bundle [("a", [2, 4]), ("b", [2, 6])]) = some [2, 10]
    ∧ ConcatFeatures.compute_output_shape (ConcatFeatures.mk (-1))
        [("a", ShapeItem.leaf [2, 4, 5])] = some (2, 4)
    ∧ ConcatFeatures.call (ConcatFeatures.mk (-1))
        (TfInput.bundle [("a", [2, 4, 5])]) = some [2, 20]
    ∧ (some (2, 4) : Option (Nat × Nat)) ≠ some (2, 20) := by
  refine ⟨by decide, by decide, by decide, by decide, by decide⟩

/-- Claim C8: the right-shift composition chain applies the left block
first and feeds its result into the right block — function composition
B after A. -/
theorem rshift_is_composition {α : Type} (a b : α → α) (x : α) :
    SequentialBlock.call (rshiftBlocks a b) x = b (a x) := rfl

/-! ## Helper lemmas for the filter and merge claims -/

theorem find?_key_filter_of_mem {α : Type} (B : Bundle α) (C : List String)
    (k : String) (hk : k ∈ C) :
    (B.filter (fun p => p.1 ∈ C)).find? (fun p => p.1 == k)
      = B.find? (fun p => p.1 == k) := by
  induction B with
  | nil => rfl
  | cons p rest ih =>
    by_cases hp : p.1 ∈ C
    · by_cases hpk : p.1 = k
      · simp [List.filter_cons, hp, List.find?_cons, hpk, hk]
      · simp [List.filter_cons, hp, List.find?_cons, hpk, ih]
    · have hpk : p.1 ≠ k := fun h => hp (h ▸ hk)
      simp [List.filter_cons, hp, List.find?_cons, hpk, ih]

theorem find?_key_filter_of_not_mem {α : Type} (B : Bundle α) (C : List String)
    (k : String) (hk : k ∉ C) :
    (B.filter (fun p => p.1 ∈ C)).find? (fun p => p.1 == k) = none := by
  induction B with
  | nil => rfl
  | cons p rest ih =>
    by_cases hp : p.1 ∈ C
    · have hpk : p.1 ≠ k := fun h => hk (h ▸ hp)
      simp [List.filter_cons, hp, List.find?_cons, hpk, ih]
    · simp [List.filter_cons, hp, ih]

theorem mem_keys_filter_iff {α : Type} (B : Bundle α) (C : List String) (x : String) :
    x ∈ Bundle.keys (B.filter (fun p => p.1 ∈ C)) ↔ (x ∈ C ∧ ∃ v, (x, v) ∈ B) := by
  simp only [Bundle.keys, List.mem_map, List.mem_filter, decide_eq_true_eq]
  constructor
  · rintro ⟨p, ⟨hpB, hpC⟩, rfl⟩
    exact ⟨hpC, p.2, hpB⟩
  · rintro ⟨hxC, v, hvB⟩
    exact ⟨(x, v), ⟨hvB, hxC⟩, rfl⟩

theorem mem_pop_filter_iff {α : Type} (B : Bundle α) (C : List String) (q : String × α) :
    q ∈ (FilterFeatures.callDict ⟨C, true⟩ B).2 ↔ (q ∈ B ∧ q.1 ∉ C) := by
  show q ∈ dictPopKeys B (Bundle.keys (B.filter (fun p => p.1 ∈ C))) ↔ _
  simp only [dictPopKeys, List.mem_filter, decide_eq_true_eq]
  constructor
  · rintro ⟨hqB, hqk⟩
    refine ⟨hqB, fun hqC => hqk ?_⟩
    exact (mem_keys_filter_iff B C q.1).mpr ⟨hqC, q.2, hqB⟩
  · rintro ⟨hqB, hqC⟩
    refine ⟨hqB, fun hqk => hqC ?_⟩
    exact ((mem_keys_filter_iff B C q.1).mp hqk).1

/-- Claim C1: FilterFeatures returns exactly the entries of the input
dict whose key is in the column set; without pop the input dict is
unchanged after the call; with pop the selected entries (and only those)
are removed from the input dict in place, so afterwards no remaining key
lies in the column set. -/
theorem filter_features_spec {α : Type} (B : Bundle α) (C : List String)
    (k : String) (q : String × α) :
    Bundle.lookup? (FilterFeatures.callDict ⟨C, false⟩ B).1 k
        = (if k ∈ C then Bundle.lookup? B k else none)
    ∧ (q ∈ (FilterFeatures.callDict ⟨C, false⟩ B).1 ↔ (q ∈ B ∧ q.1 ∈ C))
    ∧ (FilterFeatures.callDict ⟨C, false⟩ B).2 = B
    ∧ (FilterFeatures.callDict ⟨C, true⟩ B).1 = (FilterFeatures.callDict ⟨C, false⟩ B).1
    ∧ (q ∈ (FilterFeatures.callDict ⟨C, true⟩ B).2 ↔ (q ∈ B ∧ q.1 ∉ C))
    ∧ (k ∈ Bundle.keys (FilterFeatures.callDict ⟨C, true⟩ B).2 → k ∉ C) := by
  refine ⟨?_, ?_, rfl, rfl, mem_pop_filter_iff B C q, ?_⟩
  · by_cases hk : k ∈ C
    · simp only [hk, if_pos]
      show Bundle.lookup? (B.filter (fun p => p.1 ∈ C)) k = Bundle.lookup? B k
      unfold Bundle.lookup?
      rw [find?_key_filter_of_mem B C k hk]
    · simp only [hk, if_neg, not_false_iff]
      show Bundle.lookup? (B.filter (fun p => p.1 ∈ C)) k = none
      unfold Bundle.lookup?
      rw [find?_key_filter_of_not_mem B C k hk]
      rfl
  · show q ∈ B.filter (fun p => p.1 ∈ C) ↔ _
    simp [List.mem_filter]
  · intro hk
    simp only [Bundle.keys, List.mem_map] at hk
    obtain ⟨p, hp, rfl⟩ := hk
    exact ((mem_pop_filter_iff B C p).mp hp).2

/-- Witness for C1 at a concrete dict: popping the column a from the dict
with keys a and b leaves the entry b, whose key is outside the filtered
column set. -/
theorem filter_features_spec_witness :
    (("b", 2) ∈ (FilterFeatures.callDict ⟨["a"], true⟩
        ([("a", 1), ("b", 2)] : Bundle Nat)).2)
    ∧ ("b" : String) ∉ (["a"] : List String) :=
  ⟨by decide,
   (filter_features_spec ([("a", 1), ("b", 2)] : Bundle Nat) ["a"] "b" ("b", 2)).2.2.2.2.2
     (by decide)⟩

theorem lookup?_dictSetItem {α : Type} (d : Bundle α) (k : String) (v : α)
    (x : String) :
    Bundle.lookup? (dictSetItem d k v) x = (if x = k then some v else Bundle.lookup? d x) := by
  induction d with
  | nil =>
    by_cases hx : x = k
    · simp [dictSetItem, Bundle.lookup?, List.find?_cons, hx]
    · have : (k == x) = false := by
        exact beq_eq_false_iff_ne.mpr (fun h => hx h.symm)
      simp [dictSetItem, Bundle.lookup?, List.find?_cons, this, hx]
  | cons p rest ih =>
    by_cases hpk : p.1 = k
    · by_cases hx : x = k
      · simp [dictSetItem, hpk, Bundle.lookup?, List.find?_cons, hx]
      · have h1 : (k == x) = false := beq_eq_false_iff_ne.mpr (fun h => hx h.symm)
        have h2 : (p.1 == x) = false := by
          rw [hpk]; exact h1
        simp [dictSetItem, hpk, Bundle.lookup?, List.find?_cons, h1, h2, hx]
    · by_cases hxp : x = p.1
      · have h1 : (p.1 == x) = true := by
          exact beq_iff_eq.mpr hxp.symm
        have hx : x ≠ k := fun h => hpk (hxp.symm.trans h)
        simp [dictSetItem, hpk, Bundle.lookup?, List.find?_cons, h1, hx]
      · have h1 : (p.1 == x) = false := beq_eq_false_iff_ne.mpr (fun h => hxp h.symm)
        simpa [dictSetItem, hpk, Bundle.lookup?, List.find?_cons, h1] using ih

theorem lookup?_eq_none_of_not_mem_keys {α : Type} (d : Bundle α) (k : String)
    (hk : k ∉ Bundle.keys d) :
    Bundle.lookup? d k = none := by
  induction d with
  | nil => rfl
  | cons p rest ih =>
    have hpk : p.1 ≠ k := fun h => hk (by simp [Bundle.keys, h])
    have hrest : k ∉ Bundle.keys rest := fun h => hk (by simp [Bundle.keys] at h ⊢; right; exact h)
    simp only [Bundle.lookup?, List.find?_cons, beq_eq_false_iff_ne.mpr hpk]
    exact ih hrest

theorem lookup?_dictUpdate {α : Type} (e : Bundle α) (d : Bundle α) (k : String)
    (he : (Bundle.keys e).Nodup) :
    Bundle.lookup? (dictUpdate d e) k
      = (match Bundle.lookup? e k with
         | some v => some v
         | none => Bundle.lookup? d k) := by
  induction e generalizing d with
  | nil => rfl
  | cons p es ih =>
    have he' : (Bundle.keys es).Nodup := by
      simpa [Bundle.keys] using he.of_cons
    have hp : p.1 ∉ Bundle.keys es := by
      simp only [Bundle.keys, List.map_cons, List.nodup_cons] at he
      exact he.1
    have hstep : dictUpdate d (p :: es) = dictUpdate (dictSetItem d p.1 p.2) es := rfl
    rw [hstep, ih _ he']
    by_cases hk : k = p.1
    · subst hk
      rw [lookup?_eq_none_of_not_mem_keys es _ hp]
      rw [lookup?_dictSetItem]
      simp [Bundle.lookup?, List.find?_cons]
    · have h1 : (p.1 == k) = false := beq_eq_false_iff_ne.mpr (fun h => hk h.symm)
      rw [lookup?_dictSetItem]
      have h2 : Bundle.lookup? (p :: es) k = Bundle.lookup? es k := by
        simp [Bundle.lookup?, List.find?_cons, h1]
      rw [h2]
      simp [hk]

theorem lookup?_merge_foldl {α β : Type} (blocks : List (Bundle α → Bundle β))
    (inputs : Bundle α) (k : String) (d : Bundle β)
    (h : ∀ b ∈ blocks, (Bundle.keys (b inputs)).Nodup) :
    Bundle.lookup? (blocks.foldl (fun outputs layer => dictUpdate outputs (layer inputs)) d) k
      = blocks.foldl
          (fun acc b =>
            match Bundle.lookup? (b inputs) k with
            | some v => some v
            | none => acc)
          (Bundle.lookup? d k) := by
  induction blocks generalizing d with
  | nil => rfl
  | cons b bs ih =>
    simp only [List.foldl_cons]
    rw [ih _ (fun x hx => h x (List.mem_cons_of_mem b hx))]
    rw [lookup?_dictUpdate _ _ _ (h b (List.mem_cons_self b bs))]

/-- Claim C2: MergeTabular applies each block to the same input dict in
argument order and unions the outputs key by key with last-write-wins —
the value under any key is the value the last block writing that key
produced.  The hypothesis records the Python dict invariant that every
block output has unique keys. -/
theorem merge_last_write_wins {α β : Type} (blocks : List (Bundle α → Bundle β))
    (inputs : Bundle α) (k : String)
    (h : ∀ b ∈ blocks, (Bundle.keys (b inputs)).Nodup) :
    Bundle.lookup? (MergeTabular.callDict (MergeTabular.mk blocks) inputs) k
      = lastWrite (blocks.map (fun b => Bundle.lookup? (b inputs) k)) := by
  unfold MergeTabular.callDict lastWrite
  rw [lookup?_merge_foldl blocks inputs k [] h, List.foldl_map]
  rfl

/-- Witness for C2 at the concrete example of the claim: with blockA
producing the dict mapping x to 1 and blockB producing the dict mapping
x to 2 and y to 3, merging A then B leaves 2 under x (and their union),
while merging B then A leaves 1 under x — reversing the argument order
flips which value survives. -/
theorem merge_last_write_wins_witness :
    Bundle.lookup? (MergeTabular.callDict (MergeTabular.mk
        [fun _ => [("x", 1)], fun _ => [("x", 2), ("y", 3)]]) ([] : Bundle Nat)) "x"
      = some 2
    ∧ Bundle.lookup? (MergeTabular.callDict (MergeTabular.mk
        [fun _ => [("x", 2), ("y", 3)], fun _ => [("x", 1)]]) ([] : Bundle Nat)) "x"
      = some 1
    ∧ MergeTabular.callDict (MergeTabular.mk
        [fun _ => [("x", 1)], fun _ => [("x", 2), ("y", 3)]]) ([] : Bundle Nat)
      = [("x", 2), ("y", 3)] := by
  refine ⟨?_, ?_, by decide⟩
  · have h := merge_last_write_wins
      [fun _ => [("x", 1)], fun _ => [("x", 2), ("y", 3)]] ([] : Bundle Nat) "x"
      (by intro b hb
          simp at hb
          rcases hb with rfl | rfl <;> decide)
    exact h.trans (by decide)
  · have h := merge_last_write_wins
      [fun _ => [("x", 2), ("y", 3)], fun _ => [("x", 1)]] ([] : Bundle Nat) "x"
      (by intro b hb
          simp at hb
          rcases hb with rfl | rfl <;> decide)
    exact h.trans (by decide)

/-- Claim C9: the schema-based factory returns no block (None, not an
error) exactly when the selected column set is empty, and otherwise
returns the block built from the selected columns. -/
theorem from_column_group_spec {Col Tg Blk : Type}
    (get_tagged : ColumnGroup Col → Tg → ColumnGroup Col)
    (from_features : List Col → Blk)
    (column_group : ColumnGroup Col) (tags : Option Tg) :
    ((match tags with
        | some t => get_tagged column_group t
        | none => column_group).columns = [] →
      TabularLayer.from_column_group get_tagged from_features column_group tags = none)
    ∧ (∀ c cs, (match tags with
        | some t => get_tagged column_group t
        | none => column_group).columns = c :: cs →
      TabularLayer.from_column_group get_tagged from_features column_group tags
        = some (from_features (c :: cs))) := by
  cases tags with
  | none =>
    constructor
    · intro h
      simp only at h
      simp [TabularLayer.from_column_group, h]
    · intro c cs h
      simp only at h
      simp [TabularLayer.from_column_group, h]
  | some t =>
    constructor
    · intro h
      simp only at h
      simp [TabularLayer.from_column_group, h]
    · intro c cs h
      simp only at h
      simp [TabularLayer.from_column_group, h]

/-- Witness for C9: an empty selection yields no block while a singleton
selection yields the block built from that column. -/
theorem from_column_group_spec_witness :
    TabularLayer.from_column_group (fun cg _ => cg) (fun cols => cols)
        (ColumnGroup.mk ([] : List Nat)) (some ()) = none
    ∧ TabularLayer.from_column_group (fun cg _ => cg) (fun cols => cols)
        (ColumnGroup.mk [5]) (none : Option Unit) = some [5] :=
  ⟨(from_column_group_spec (fun cg _ => cg) (fun cols => cols)
      (ColumnGroup.mk ([] : List Nat)) (some ())).1 rfl,
   (from_column_group_spec (fun cg _ => cg) (fun cols => cols)
      (ColumnGroup.mk [5]) (none : Option Unit)).2 5 [] rfl⟩

/-- Claim C10: batch-size discovery is partial — on a shapes dict whose
values are all ragged tuples it fails (the Python IndexError, modelled
as none), and when a first non-tuple value exists it returns that value
leading dimension. -/
theorem batch_size_discovery_spec (shapes : Bundle ShapeItem)
    (pre post : List ShapeItem) (dims : List Nat) :
    ((∀ i ∈ shapes.map Prod.snd, i.isTuple = true) →
      calculate_batch_size_from_input_shapes shapes = none)
    ∧ (shapes.map Prod.snd = pre ++ ShapeItem.leaf dims :: post →
      (∀ i ∈ pre, i.isTuple = true) →
      calculate_batch_size_from_input_shapes shapes = dims.head?) := by
  constructor
  · intro h
    unfold calculate_batch_size_from_input_shapes
    have hnil : (shapes.map Prod.snd).filter (fun i => !i.isTuple) = [] := by
      rw [List.filter_eq_nil_iff]
      intro a ha
      simp [h a ha]
    rw [hnil]
    rfl
  · intro heq hpre
    unfold calculate_batch_size_from_input_shapes
    rw [heq, List.filter_append]
    have hnil : pre.filter (fun i => !i.isTuple) = [] := by
      rw [List.filter_eq_nil_iff]
      intro a ha
      simp [hpre a ha]
    rw [hnil]
    simp [ShapeItem.isTuple]

/-- Witness for C10: an all-tuple shapes dict makes discovery fail,
while a dict whose second value is the first plain shape yields that
value leading dimension. -/
theorem batch_size_discovery_spec_witness :
    calculate_batch_size_from_input_shapes
        [("a", ShapeItem.tup [5] [5]), ("b", ShapeItem.tup [2] [2])] = none
    ∧ calculate_batch_size_from_input_shapes
        [("a", ShapeItem.tup [5] [5]), ("b", ShapeItem.leaf [7, 3])] = some 7 :=
  ⟨(batch_size_discovery_spec
      [("a", ShapeItem.tup [5] [5]), ("b", ShapeItem.tup [2] [2])] [] [] []).1
      (by decide),
   ((batch_size_discovery_spec
      [("a", ShapeItem.tup [5] [5]), ("b", ShapeItem.leaf [7, 3])]
      [ShapeItem.tup [5] [5]] [] [7, 3]).2 rfl (by decide)).trans rfl⟩

end MerlinModels
